import Mathlib

/-!
Verification development for the assembly call-graph analysis tool
(`src/main.rs`).  The core under study is `parse_data` together with its
query functions.  Strings are modelled as lists of characters (`Str`);
byte indices of the Rust code coincide with character indices on the
ASCII inputs considered here.  Rust `HashMap`/`HashSet` values are
modelled as association lists whose iteration order is insertion order;
the claims proved below do not depend on hash iteration order.  A Rust
panic (out-of-range slice) is modelled by `Option`: `parse_data` returns
`none` exactly when the Rust code would panic.
-/

namespace AsmAnalysis

/-- Characters of a line, standing for the bytes of an ASCII `&str`. -/
abbrev Str := List Char

/-- Convenience conversion from a Lean string literal. -/
def str (s : String) : Str := s.toList

/-- Character-level whitespace test, as used by Rust `str::trim`. -/
def isWS (c : Char) : Bool := c.isWhitespace

/-- Rust `str::starts_with`: `strStarts s p` holds when `p` is an initial
segment of `s`. -/
def strStarts : Str → Str → Bool
  | _, [] => true
  | [], _ :: _ => false
  | c :: s, d :: p => if c = d then strStarts s p else false

/-- Rust `str::ends_with`, via reversal. -/
def strEnds (s p : Str) : Bool := strStarts s.reverse p.reverse

/-- Rust `str::trim`: drop whitespace from both ends. -/
def strTrim (s : Str) : Str :=
  ((s.dropWhile isWS).reverse.dropWhile isWS).reverse

/-- Rust slice `&s[a..b]`: `none` models the panic on an ill-formed range. -/
def sliceRange (s : Str) (a b : Nat) : Option Str :=
  if a ≤ b ∧ b ≤ s.length then some ((s.drop a).take (b - a)) else none

/-- Association-list lookup, modelling `HashMap::get`. -/
def lookupA {α β : Type} [DecidableEq α] : List (α × β) → α → Option β
  | [], _ => none
  | (k, v) :: rest, a => if k = a then some v else lookupA rest a

/-- `HashMap::entry(k).or_insert(v)`: returns the (old or new) value
together with the updated map. -/
def getOrInsert {α β : Type} [DecidableEq α] (m : List (α × β)) (k : α) (v : β) :
    β × List (α × β) :=
  match lookupA m k with
  | some w => (w, m)
  | none => (v, m ++ [(k, v)])

/-- `HashMap::insert`: overwrite the binding for `k`, or append it. -/
def insertA {α β : Type} [DecidableEq α] : List (α × β) → α → β → List (α × β)
  | [], k, v => [(k, v)]
  | (k', v') :: rest, k, v =>
      if k' = k then (k, v) :: rest else (k', v') :: insertA rest k v

/-- `map.entry(k).or_default().push(x)` on a map of vectors. -/
def pushA {α β : Type} [DecidableEq α] : List (α × List β) → α → β → List (α × List β)
  | [], k, x => [(k, [x])]
  | (k', xs) :: rest, k, x =>
      if k' = k then (k', xs ++ [x]) :: rest else (k', xs) :: pushA rest k x

/-- `*map.entry(k).or_default() += 1` on a map of counters. -/
def bumpA {α : Type} [DecidableEq α] : List (α × Nat) → α → List (α × Nat)
  | [], k => [(k, 1)]
  | (k', n) :: rest, k =>
      if k' = k then (k', n + 1) :: rest else (k', n) :: bumpA rest k

/-- `HashSet::insert`, keeping first-insertion order. -/
def insertSet {α : Type} [DecidableEq α] (s : List α) (x : α) : List α :=
  if x ∈ s then s else s ++ [x]

/-- `struct FunctionID(usize)`. -/
structure FunctionID where
  id : Nat
deriving DecidableEq, Repr

/-- `struct ObjectID(usize)`. -/
structure ObjectID where
  id : Nat
deriving DecidableEq, Repr

/-- `struct GlobalFunctionName { name: String }`. -/
structure GlobalFunctionName where
  name : Str
deriving DecidableEq, Repr

/-- `struct LocalFunctionName { object: ObjectID, name: String }`. -/
structure LocalFunctionName where
  object : ObjectID
  name : Str
deriving DecidableEq, Repr

/-- `enum FunctionName { Global(..), Local(..) }`. -/
inductive FunctionName where
  | Global : GlobalFunctionName → FunctionName
  | Local : LocalFunctionName → FunctionName
deriving DecidableEq, Repr

/-- `struct ObjectName { path: PathBuf }`. -/
structure ObjectName where
  path : Str
deriving DecidableEq, Repr

/-- `enum LinkType { Local, Weak, Global }`. -/
inductive LinkType where
  | Local
  | Weak
  | Global
deriving DecidableEq, Repr

/-- `struct ParsedData` — the Knowledge Base. -/
structure ParsedData where
  object_id_by_name : List (ObjectName × ObjectID)
  name_by_object_id : List (ObjectID × ObjectName)
  function_id_by_name : List (FunctionName × FunctionID)
  name_by_function_id : List (FunctionID × FunctionName)
  functions_by_object : List (ObjectID × List FunctionID)
  objects_by_function : List (FunctionID × List ObjectID)
  callers_by_callee : List (FunctionID × List FunctionID)
  callees_by_caller : List (FunctionID × List FunctionID)
  instructions_by_function : List (FunctionID × Nat)
deriving DecidableEq, Repr

/-- `ParsedData::default()`. -/
def emptyParsedData : ParsedData :=
  ⟨[], [], [], [], [], [], [], [], []⟩

/-- Result of the first scan of `parse_data` (lines 125–148): linkage
directives, `.type …,@function` names, and `.set` aliases. -/
structure Pass1 where
  link_type_by_name : List (Str × LinkType)
  function_names : List Str
  aliases : List (Str × Str)
deriving DecidableEq, Repr

/-- One line of the first scan (`main.rs` lines 129–148).  `none` models
the panic of the slice `&trimmed_line[".type\t".len()..len - ", @function".len()]`
when the range is ill-formed. -/
def pass1_line (st : Pass1) (line : Str) : Option Pass1 :=
  let t := strTrim line
  if strStarts t (str ".type") && strEnds t (str "@function") then
    match sliceRange t 6 (t.length - 11) with
    | none => none
    | some function_name =>
        some { st with function_names := insertSet st.function_names function_name }
  else if strStarts t (str ".weak\t") then
    some { st with link_type_by_name := insertA st.link_type_by_name (t.drop 6) LinkType.Weak }
  else if strStarts t (str ".globl\t") then
    some { st with link_type_by_name := insertA st.link_type_by_name (t.drop 7) LinkType.Global }
  else if strStarts t (str ".set\t") then
    match t.findIdx? (fun c => c = ',') with
    | some comma_i =>
        match sliceRange t 5 comma_i, sliceRange t comma_i t.length with
        | some old_name, some new_name =>
            some { st with aliases := insertA st.aliases old_name new_name }
        | _, _ => none
    | none => some st
  else some st

/-- The whole first scan of `parse_data`. -/
def pass1 (assembly : List Str) : Option Pass1 :=
  assembly.foldlM pass1_line (⟨[], [], []⟩ : Pass1)

/-- The `FunctionName` key chosen for a classified symbol
(`main.rs` lines 153–164): local symbols are keyed by (object, name),
weak and global ones by name alone. -/
def function_key (object : ObjectID) (link_type_by_name : List (Str × LinkType))
    (function_name : Str) : FunctionName :=
  match (lookupA link_type_by_name function_name).getD LinkType.Local with
  | LinkType.Local => FunctionName.Local ⟨object, function_name⟩
  | _ => FunctionName.Global ⟨function_name⟩

/-- One step of the interning loop over `function_names`
(`main.rs` lines 152–173).  The accumulator carries the per-parse
`id_by_function_name` table and the Knowledge Base. -/
def classify_function (object : ObjectID) (link_type_by_name : List (Str × LinkType))
    (acc : List (Str × FunctionID) × ParsedData) (function_name : Str) :
    List (Str × FunctionID) × ParsedData :=
  let function := function_key object link_type_by_name function_name
  let next_function_id : FunctionID := ⟨acc.2.function_id_by_name.length⟩
  let r := getOrInsert acc.2.function_id_by_name function next_function_id
  let parsed := { acc.2 with
    function_id_by_name := r.2,
    name_by_function_id := insertA acc.2.name_by_function_id r.1 function }
  (insertA acc.1 function_name r.1, parsed)

/-- Lazy interning of a callee name not classified in the current object
(`main.rs` lines 202–213).  Note the faithful reproduction of the source:
the `name_by_function_id` entry is written at `next_function_id`, not at
the id actually returned by `or_insert`. -/
def resolve_callee (parsed : ParsedData) (callee : Str) : FunctionID × ParsedData :=
  let next_function_id : FunctionID := ⟨parsed.function_id_by_name.length⟩
  let callee_name := FunctionName.Global ⟨callee⟩
  let r := getOrInsert parsed.function_id_by_name callee_name next_function_id
  (r.1, { parsed with
    function_id_by_name := r.2,
    name_by_function_id := insertA parsed.name_by_function_id next_function_id callee_name })

/-- Second-scan step while a function body is open (`main.rs` lines 177–226). -/
def scan_open (aliases : List (Str × Str)) (id_by_function_name : List (Str × FunctionID))
    (function_id : FunctionID) (parsed : ParsedData) (line : Str) :
    Option FunctionID × ParsedData :=
  let t := strTrim line
  if strStarts t (str ".size\t") then (none, parsed)
  else if strStarts t (str ".") then (some function_id, parsed)
  else
    let parsed := { parsed with
      instructions_by_function := bumpA parsed.instructions_by_function function_id }
    if strStarts t (str "call\t") then
      let callee := t.drop 5
      if strStarts callee (str "*%") then (some function_id, parsed)
      else
        let callee := if strEnds callee (str "@PLT") then callee.take (callee.length - 4) else callee
        let callee := (lookupA aliases callee).getD callee
        let r :=
          match lookupA id_by_function_name callee with
          | some callee_id => (callee_id, parsed)
          | none => resolve_callee parsed callee
        (some function_id, { r.2 with
          callees_by_caller := pushA r.2.callees_by_caller function_id r.1,
          callers_by_callee := pushA r.2.callers_by_callee r.1 function_id })
    else (some function_id, parsed)

/-- Second-scan step while no function body is open (`main.rs` lines 227–248). -/
def scan_closed (id_by_function_name : List (Str × FunctionID)) (object : ObjectID)
    (parsed : ParsedData) (line : Str) : Option FunctionID × ParsedData :=
  if strStarts line (str "\t") then (none, parsed)
  else if !(strEnds line (str ":")) then (none, parsed)
  else
    let label_name := line.take (line.length - 1)
    match lookupA id_by_function_name label_name with
    | some function_id =>
        (some function_id, { parsed with
          functions_by_object := pushA parsed.functions_by_object object function_id,
          objects_by_function := pushA parsed.objects_by_function function_id object })
    | none => (none, parsed)

/-- One line of the second scan of `parse_data` (lines 176–249). -/
def scan_line (aliases : List (Str × Str)) (id_by_function_name : List (Str × FunctionID))
    (object : ObjectID) (acc : Option FunctionID × ParsedData) (line : Str) :
    Option FunctionID × ParsedData :=
  match acc with
  | (some function_id, parsed) => scan_open aliases id_by_function_name function_id parsed line
  | (none, parsed) => scan_closed id_by_function_name object parsed line

/-- The whole second scan of `parse_data`. -/
def scan_run (aliases : List (Str × Str)) (id_by_function_name : List (Str × FunctionID))
    (object : ObjectID) (assembly : List Str) (acc : Option FunctionID × ParsedData) :
    Option FunctionID × ParsedData :=
  assembly.foldl (scan_line aliases id_by_function_name object) acc

/-- `fn parse_data` (`main.rs` lines 124–250).  `none` models a panic of
the Rust function. -/
def parse_data (object : ObjectID) (assembly : List Str) (parsed : ParsedData) :
    Option ParsedData :=
  match pass1 assembly with
  | none => none
  | some st =>
    let acc := st.function_names.foldl (classify_function object st.link_type_by_name) ([], parsed)
    some (scan_run st.aliases acc.1 object assembly (none, acc.2)).2

/-- Object registration performed by the caller of `parse_data`
(`main.rs` lines 332–341). -/
def register_object (parsed : ParsedData) (object_name : ObjectName) :
    ObjectID × ParsedData :=
  let next_object_id : ObjectID := ⟨parsed.object_id_by_name.length⟩
  let r := getOrInsert parsed.object_id_by_name object_name next_object_id
  (r.1, { parsed with
    object_id_by_name := r.2,
    name_by_object_id := (getOrInsert parsed.name_by_object_id r.1 object_name).2 })

/-- `fn print_functions_in_all_objects` (lines 261–269), as the list of
function ids the loop would report. -/
def print_functions_in_all_objects (parsed : ParsedData) : List FunctionID :=
  (parsed.objects_by_function.filter
    (fun e => e.2.length = parsed.object_id_by_name.length)).map Prod.fst

/-- The data returned by `fn print_function_info` (lines 271–305). -/
structure FunctionInfo where
  objects : List ObjectID
  callers : List FunctionID
  callees : List FunctionID
deriving DecidableEq, Repr

/-- `fn print_function_info` (lines 271–305): `none` models the
`Err("Can't find function.")` case. -/
def print_function_info (parsed : ParsedData) (function : FunctionName) :
    Option FunctionInfo :=
  match lookupA parsed.function_id_by_name function with
  | none => none
  | some function_id =>
      some { objects := (lookupA parsed.objects_by_function function_id).getD [],
             callers := (lookupA parsed.callers_by_callee function_id).getD [],
             callees := (lookupA parsed.callees_by_caller function_id).getD [] }

/-! ## Basic lemmas about the association-list maps -/

theorem lookupA_append_some {α β : Type} [DecidableEq α] {m : List (α × β)} (l : List (α × β))
    {a : α} {b : β} (h : lookupA m a = some b) : lookupA (m ++ l) a = some b := by
  induction m with
  | nil => simp [lookupA] at h
  | cons kv rest ih =>
      obtain ⟨k, v⟩ := kv
      simp only [lookupA, List.cons_append] at h ⊢
      split at h
      · simp_all
      · simp only [*, if_false]
        exact ih h

theorem lookupA_append_none {α β : Type} [DecidableEq α] {m : List (α × β)} (l : List (α × β))
    {a : α} (h : lookupA m a = none) : lookupA (m ++ l) a = lookupA l a := by
  induction m with
  | nil => simp [lookupA]
  | cons kv rest ih =>
      obtain ⟨k, v⟩ := kv
      simp only [lookupA, List.cons_append] at h ⊢
      split at h
      · exact absurd h (by simp)
      · simp only [*, if_false]
        exact ih h

theorem getOrInsert_preserves {α β : Type} [DecidableEq α] {m : List (α × β)}
    (k : α) (v : β) {a : α} {b : β} (h : lookupA m a = some b) :
    lookupA (getOrInsert m k v).2 a = some b := by
  unfold getOrInsert
  cases hk : lookupA m k with
  | some w => exact h
  | none => exact lookupA_append_some _ h

theorem getOrInsert_self {α β : Type} [DecidableEq α] (m : List (α × β)) (k : α) (v : β) :
    lookupA (getOrInsert m k v).2 k = some (getOrInsert m k v).1 := by
  unfold getOrInsert
  cases hk : lookupA m k with
  | some w => exact hk
  | none => rw [lookupA_append_none _ hk]; simp [lookupA]

theorem lookupA_mem {α β : Type} [DecidableEq α] {m : List (α × β)} {a : α} {b : β}
    (h : lookupA m a = some b) : (a, b) ∈ m := by
  induction m with
  | nil => simp [lookupA] at h
  | cons kv rest ih =>
      obtain ⟨k, v⟩ := kv
      simp only [lookupA] at h
      split at h
      · simp_all
      · exact List.mem_cons_of_mem _ (ih h)

theorem mem_iff_lookupA {α β : Type} [DecidableEq α] {m : List (α × β)}
    (h : (m.map Prod.fst).Nodup) (a : α) (b : β) :
    (a, b) ∈ m ↔ lookupA m a = some b := by
  induction m with
  | nil => simp [lookupA]
  | cons kv rest ih =>
      obtain ⟨k, v⟩ := kv
      simp only [List.map_cons, List.nodup_cons, List.mem_map] at h
      obtain ⟨hk, hrest⟩ := h
      simp only [List.mem_cons, lookupA]
      by_cases hka : k = a
      · subst hka
        simp only [if_pos rfl]
        constructor
        · rintro (heq | hmem)
          · simp at heq; simp [heq]
          · exact absurd ⟨(k, b), hmem, rfl⟩ hk
        · intro hv
          left
          simp at hv
          simp [hv]
      · simp only [if_neg hka, ← ih hrest]
        constructor
        · rintro (heq | hmem)
          · exact absurd (congrArg Prod.fst heq).symm hka
          · exact hmem
        · exact fun hmem => Or.inr hmem

theorem snd_nodup_inj {α β : Type} {m : List (α × β)} (h : (m.map Prod.snd).Nodup)
    {a c : α} {b : β} (ha : (a, b) ∈ m) (hc : (c, b) ∈ m) : a = c := by
  induction m with
  | nil => simp at ha
  | cons kv rest ih =>
      obtain ⟨k, v⟩ := kv
      simp only [List.map_cons, List.nodup_cons, List.mem_map] at h
      obtain ⟨hv, hrest⟩ := h
      rcases List.mem_cons.1 ha with ha1 | ha2 <;> rcases List.mem_cons.1 hc with hc1 | hc2
      · rw [Prod.mk.injEq] at ha1 hc1
        rw [ha1.1, hc1.1]
      · rw [Prod.mk.injEq] at ha1
        exact absurd ⟨(c, b), hc2, by simp [ha1.2]⟩ hv
      · rw [Prod.mk.injEq] at hc1
        exact absurd ⟨(a, b), ha2, by simp [hc1.2]⟩ hv
      · exact ih hrest ha2 hc2

theorem bumpA_self {α : Type} [DecidableEq α] (m : List (α × Nat)) (k : α) :
    lookupA (bumpA m k) k = some ((lookupA m k).getD 0 + 1) := by
  induction m with
  | nil => simp [bumpA, lookupA]
  | cons kv rest ih =>
      obtain ⟨k', n⟩ := kv
      by_cases hk : k' = k
      · subst hk
        simp [bumpA, lookupA]
      · simp [bumpA, lookupA, hk, ih]

/-! ## The id-table invariant

`IdsOk` captures the allocation discipline of `function_id_by_name`:
every stored id is below the table size (ids are allocated as the table
size at insertion time), and ids are pairwise distinct, which makes the
name-to-id table injective. -/

def IdsOk (m : List (FunctionName × FunctionID)) : Prop :=
  (m.map Prod.snd).Nodup ∧ ∀ i ∈ m.map Prod.snd, i.id < m.length

theorem IdsOk_getOrInsert {m : List (FunctionName × FunctionID)} (h : IdsOk m)
    (k : FunctionName) :
    IdsOk (getOrInsert m k ⟨m.length⟩).2 := by
  obtain ⟨hnd, hlt⟩ := h
  unfold getOrInsert
  cases hk : lookupA m k with
  | some w => exact ⟨hnd, hlt⟩
  | none =>
      constructor
      · simp only [List.map_append, List.map_cons, List.map_nil]
        rw [List.nodup_append]
        refine ⟨hnd, List.nodup_singleton _, ?_⟩
        intro i hi hmem
        simp only [List.mem_singleton] at hmem
        subst hmem
        exact absurd (hlt _ hi) (by simp)
      · intro i hi
        simp only [List.map_append, List.map_cons, List.map_nil, List.mem_append,
          List.mem_singleton] at hi
        simp only [List.length_append, List.length_cons, List.length_nil]
        rcases hi with hi | hi
        · exact Nat.lt_succ_of_lt (hlt _ hi)
        · subst hi; simp

theorem IdsOk_inj {m : List (FunctionName × FunctionID)} (h : IdsOk m)
    {k1 k2 : FunctionName} {i : FunctionID}
    (h1 : lookupA m k1 = some i) (h2 : lookupA m k2 = some i) : k1 = k2 :=
  snd_nodup_inj h.1 (lookupA_mem h1) (lookupA_mem h2)

/-! ## How the scans transform `function_id_by_name` -/

theorem classify_function_fidbn (o : ObjectID) (ltm : List (Str × LinkType))
    (acc : List (Str × FunctionID) × ParsedData) (n : Str) :
    (classify_function o ltm acc n).2.function_id_by_name
      = (getOrInsert acc.2.function_id_by_name (function_key o ltm n)
          ⟨acc.2.function_id_by_name.length⟩).2 := rfl

theorem resolve_callee_fidbn (p : ParsedData) (c : Str) :
    (resolve_callee p c).2.function_id_by_name
      = (getOrInsert p.function_id_by_name (FunctionName.Global ⟨c⟩)
          ⟨p.function_id_by_name.length⟩).2 := rfl

theorem scan_closed_fidbn (idb : List (Str × FunctionID)) (o : ObjectID)
    (p : ParsedData) (l : Str) :
    (scan_closed idb o p l).2.function_id_by_name = p.function_id_by_name := by
  unfold scan_closed
  dsimp only
  split
  · rfl
  split
  · rfl
  · split <;> rfl

theorem scan_open_fidbn (a : List (Str × Str)) (idb : List (Str × FunctionID))
    (f : FunctionID) (p : ParsedData) (l : Str) :
    (scan_open a idb f p l).2.function_id_by_name = p.function_id_by_name ∨
    ∃ c, (scan_open a idb f p l).2.function_id_by_name
      = (getOrInsert p.function_id_by_name (FunctionName.Global ⟨c⟩)
          ⟨p.function_id_by_name.length⟩).2 := by
  unfold scan_open
  dsimp only
  split
  · exact Or.inl rfl
  split
  · exact Or.inl rfl
  split
  · split
    · exact Or.inl rfl
    · split
      · exact Or.inl rfl
      · exact Or.inr ⟨_, rfl⟩
  · exact Or.inl rfl

theorem scan_line_preserves (a : List (Str × Str)) (idb : List (Str × FunctionID))
    (o : ObjectID) (acc : Option FunctionID × ParsedData) (l : Str)
    {k : FunctionName} {v : FunctionID}
    (h : lookupA acc.2.function_id_by_name k = some v) :
    lookupA (scan_line a idb o acc l).2.function_id_by_name k = some v := by
  obtain ⟨cur, p⟩ := acc
  cases cur with
  | none =>
      show lookupA (scan_closed idb o p l).2.function_id_by_name k = some v
      rw [scan_closed_fidbn]
      exact h
  | some f =>
      show lookupA (scan_open a idb f p l).2.function_id_by_name k = some v
      rcases scan_open_fidbn a idb f p l with heq | ⟨c, heq⟩
      · rw [heq]; exact h
      · rw [heq]; exact getOrInsert_preserves _ _ h

theorem scan_line_IdsOk (a : List (Str × Str)) (idb : List (Str × FunctionID))
    (o : ObjectID) (acc : Option FunctionID × ParsedData) (l : Str)
    (h : IdsOk acc.2.function_id_by_name) :
    IdsOk (scan_line a idb o acc l).2.function_id_by_name := by
  obtain ⟨cur, p⟩ := acc
  cases cur with
  | none =>
      show IdsOk (scan_closed idb o p l).2.function_id_by_name
      rw [scan_closed_fidbn]
      exact h
  | some f =>
      show IdsOk (scan_open a idb f p l).2.function_id_by_name
      rcases scan_open_fidbn a idb f p l with heq | ⟨c, heq⟩
      · rw [heq]; exact h
      · rw [heq]; exact IdsOk_getOrInsert h _

theorem scan_run_preserves (a : List (Str × Str)) (idb : List (Str × FunctionID))
    (o : ObjectID) (ls : List Str) :
    ∀ (acc : Option FunctionID × ParsedData) {k : FunctionName} {v : FunctionID},
      lookupA acc.2.function_id_by_name k = some v →
      lookupA (scan_run a idb o ls acc).2.function_id_by_name k = some v := by
  induction ls with
  | nil => intro acc k v h; exact h
  | cons l rest ih =>
      intro acc k v h
      exact ih _ (scan_line_preserves a idb o acc l h)

theorem scan_run_IdsOk (a : List (Str × Str)) (idb : List (Str × FunctionID))
    (o : ObjectID) (ls : List Str) :
    ∀ (acc : Option FunctionID × ParsedData), IdsOk acc.2.function_id_by_name →
      IdsOk (scan_run a idb o ls acc).2.function_id_by_name := by
  induction ls with
  | nil => intro acc h; exact h
  | cons l rest ih =>
      intro acc h
      exact ih _ (scan_line_IdsOk a idb o acc l h)

theorem classify_fold_preserves (o : ObjectID) (ltm : List (Str × LinkType))
    (names : List Str) :
    ∀ (acc : List (Str × FunctionID) × ParsedData) {k : FunctionName} {v : FunctionID},
      lookupA acc.2.function_id_by_name k = some v →
      lookupA ((names.foldl (classify_function o ltm) acc).2.function_id_by_name) k = some v := by
  induction names with
  | nil => intro acc k v h; exact h
  | cons n rest ih =>
      intro acc k v h
      refine ih _ ?_
      rw [classify_function_fidbn]
      exact getOrInsert_preserves _ _ h

theorem classify_fold_IdsOk (o : ObjectID) (ltm : List (Str × LinkType))
    (names : List Str) :
    ∀ (acc : List (Str × FunctionID) × ParsedData), IdsOk acc.2.function_id_by_name →
      IdsOk ((names.foldl (classify_function o ltm) acc).2.function_id_by_name) := by
  induction names with
  | nil => intro acc h; exact h
  | cons n rest ih =>
      intro acc h
      refine ih _ ?_
      rw [classify_function_fidbn]
      exact IdsOk_getOrInsert h _

theorem classify_fold_binds (o : ObjectID) (ltm : List (Str × LinkType))
    (names : List Str) :
    ∀ (acc : List (Str × FunctionID) × ParsedData) (n : Str), n ∈ names →
      ∃ i, lookupA ((names.foldl (classify_function o ltm) acc).2.function_id_by_name)
            (function_key o ltm n) = some i := by
  induction names with
  | nil => intro acc n h; simp at h
  | cons m rest ih =>
      intro acc n h
      rcases List.mem_cons.1 h with rfl | h
      · have hbind : lookupA (classify_function o ltm acc n).2.function_id_by_name
            (function_key o ltm n)
            = some (getOrInsert acc.2.function_id_by_name (function_key o ltm n)
                ⟨acc.2.function_id_by_name.length⟩).1 := by
          rw [classify_function_fidbn]
          exact getOrInsert_self _ _ _
        exact ⟨_, classify_fold_preserves o ltm rest _ hbind⟩
      · exact ih _ n h

/-! ## Parse-level consequences -/

theorem parse_data_preserves {o : ObjectID} {t : List Str} {p p' : ParsedData}
    (hp : parse_data o t p = some p') {k : FunctionName} {v : FunctionID}
    (h : lookupA p.function_id_by_name k = some v) :
    lookupA p'.function_id_by_name k = some v := by
  unfold parse_data at hp
  cases hps : pass1 t with
  | none => rw [hps] at hp; exact absurd hp (by simp)
  | some st =>
      rw [hps] at hp
      simp only [Option.some.injEq] at hp
      subst hp
      exact scan_run_preserves _ _ _ _ _ (classify_fold_preserves _ _ _ _ h)

theorem parse_data_IdsOk {o : ObjectID} {t : List Str} {p p' : ParsedData}
    (hp : parse_data o t p = some p') (h : IdsOk p.function_id_by_name) :
    IdsOk p'.function_id_by_name := by
  unfold parse_data at hp
  cases hps : pass1 t with
  | none => rw [hps] at hp; exact absurd hp (by simp)
  | some st =>
      rw [hps] at hp
      simp only [Option.some.injEq] at hp
      subst hp
      exact scan_run_IdsOk _ _ _ _ _ (classify_fold_IdsOk _ _ _ _ h)

theorem parse_data_binds {o : ObjectID} {t : List Str} {p p' : ParsedData} {st : Pass1}
    (hps : pass1 t = some st) (hp : parse_data o t p = some p') {n : Str}
    (hn : n ∈ st.function_names) :
    ∃ i, lookupA p'.function_id_by_name (function_key o st.link_type_by_name n) = some i := by
  unfold parse_data at hp
  rw [hps] at hp
  simp only [Option.some.injEq] at hp
  subst hp
  obtain ⟨i, hi⟩ := classify_fold_binds o st.link_type_by_name st.function_names ([], p) n hn
  exact ⟨i, scan_run_preserves _ _ _ _ _ hi⟩

/-! ## Behaviour of the body scanner while a function is open -/

theorem strStarts_cons {t : Str} {c : Char} {ps : Str} (h : strStarts t (c :: ps) = true) :
    strStarts t [c] = true := by
  cases t with
  | nil => simp [strStarts] at h
  | cons d rest =>
      simp only [strStarts] at h ⊢
      split at h
      · simp [*, strStarts]
      · exact absurd h (by simp)

theorem size_starts_dot {t : Str} (h : strStarts t (str ".size\t") = true) :
    strStarts t (str ".") = true := by
  have e1 : str ".size\t" = '.' :: str "size\t" := by decide
  have e2 : str "." = ['.'] := by decide
  rw [e1] at h
  rw [e2]
  exact strStarts_cons h

theorem scan_open_size (a : List (Str × Str)) (idb : List (Str × FunctionID))
    (f : FunctionID) (p : ParsedData) (l : Str)
    (h : strStarts (strTrim l) (str ".size\t") = true) :
    scan_open a idb f p l = (none, p) := by
  unfold scan_open
  dsimp only
  rw [h]
  simp

theorem scan_open_step (a : List (Str × Str)) (idb : List (Str × FunctionID))
    (f : FunctionID) (p : ParsedData) (l : Str)
    (h : strStarts (strTrim l) (str ".size\t") = false) :
    (scan_open a idb f p l).1 = some f ∧
    (lookupA (scan_open a idb f p l).2.instructions_by_function f).getD 0
      = (lookupA p.instructions_by_function f).getD 0
        + (if strStarts (strTrim l) (str ".") = true then 0 else 1) := by
  unfold scan_open
  dsimp only
  rw [h]
  simp only [Bool.false_eq_true, if_false]
  by_cases hd : strStarts (strTrim l) (str ".") = true
  · simp [hd]
  · rw [Bool.not_eq_true] at hd
    simp only [hd, Bool.false_eq_true, if_false, if_true]
    by_cases hc : strStarts (strTrim l) (str "call\t") = true
    · simp only [hc, if_true]
      split
      · exact ⟨rfl, by simp [bumpA_self]⟩
      · split
        · exact ⟨rfl, by simp [bumpA_self]⟩
        · exact ⟨rfl, by simp [resolve_callee, bumpA_self]⟩
    · rw [Bool.not_eq_true] at hc
      simp only [hc, Bool.false_eq_true, if_false]
      exact ⟨by simp, by simp [bumpA_self]⟩

theorem scan_open_membership (a : List (Str × Str)) (idb : List (Str × FunctionID))
    (f : FunctionID) (p : ParsedData) (l : Str) :
    (scan_open a idb f p l).2.functions_by_object = p.functions_by_object ∧
    (scan_open a idb f p l).2.objects_by_function = p.objects_by_function := by
  unfold scan_open
  dsimp only
  split
  · exact ⟨rfl, rfl⟩
  split
  · exact ⟨rfl, rfl⟩
  split
  · split
    · exact ⟨rfl, rfl⟩
    · split
      · exact ⟨rfl, rfl⟩
      · exact ⟨rfl, rfl⟩
  · exact ⟨rfl, rfl⟩

theorem scan_open_cursor (a : List (Str × Str)) (idb : List (Str × FunctionID))
    (f : FunctionID) (p : ParsedData) (l : Str) :
    ((scan_open a idb f p l).1 = none) ↔ strStarts (strTrim l) (str ".size\t") = true := by
  unfold scan_open
  dsimp only
  split
  next hs => simp [hs]
  next hs =>
    have hf : strStarts (strTrim l) (str ".size\t") = false := by
      cases hv : strStarts (strTrim l) (str ".size\t")
      · rfl
      · exact absurd hv hs
    rw [hf]
    simp only [Bool.false_eq_true, iff_false]
    split
    · simp
    split
    · split
      · simp
      · split <;> simp
    · simp

theorem scan_closed_label (idb : List (Str × FunctionID)) (o : ObjectID)
    (p : ParsedData) (l : Str) (f : FunctionID)
    (h1 : strStarts l (str "\t") = false) (h2 : strEnds l (str ":") = true)
    (h3 : lookupA idb (l.take (l.length - 1)) = some f) :
    scan_closed idb o p l
      = (some f, { p with
          functions_by_object := pushA p.functions_by_object o f,
          objects_by_function := pushA p.objects_by_function f o }) := by
  unfold scan_closed
  dsimp only
  rw [h1, h2]
  simp only [Bool.false_eq_true, if_false, Bool.not_true, h3]

theorem scan_run_cons (a : List (Str × Str)) (idb : List (Str × FunctionID))
    (o : ObjectID) (l : Str) (ls : List Str) (acc : Option FunctionID × ParsedData) :
    scan_run a idb o (l :: ls) acc = scan_run a idb o ls (scan_line a idb o acc l) := rfl

theorem scan_run_single (a : List (Str × Str)) (idb : List (Str × FunctionID))
    (o : ObjectID) (l : Str) (acc : Option FunctionID × ParsedData) :
    scan_run a idb o [l] acc = scan_line a idb o acc l := rfl

theorem scan_run_append (a : List (Str × Str)) (idb : List (Str × FunctionID))
    (o : ObjectID) (l1 l2 : List Str) (acc : Option FunctionID × ParsedData) :
    scan_run a idb o (l1 ++ l2) acc = scan_run a idb o l2 (scan_run a idb o l1 acc) := by
  simp [scan_run]

theorem scan_run_open (a : List (Str × Str)) (idb : List (Str × FunctionID))
    (o : ObjectID) (ls : List Str) :
    ∀ (f : FunctionID) (p : ParsedData),
      (∀ l ∈ ls, strStarts (strTrim l) (str ".size\t") = false) →
      (scan_run a idb o ls (some f, p)).1 = some f ∧
      (lookupA (scan_run a idb o ls (some f, p)).2.instructions_by_function f).getD 0
        = (lookupA p.instructions_by_function f).getD 0
          + (ls.filter (fun l => !(strStarts (strTrim l) (str ".")))).length := by
  induction ls with
  | nil => intro f p h; simp [scan_run]
  | cons l rest ih =>
      intro f p h
      have hl := h l (List.mem_cons_self l rest)
      have hrest := fun x hx => h x (List.mem_cons_of_mem l hx)
      obtain ⟨h1, h2⟩ := scan_open_step a idb f p l hl
      have hpair : scan_open a idb f p l = (some f, (scan_open a idb f p l).2) := by
        rw [← h1]
      have hrun : scan_run a idb o (l :: rest) (some f, p)
          = scan_run a idb o rest (some f, (scan_open a idb f p l).2) := by
        show scan_run a idb o rest (scan_line a idb o (some f, p) l) = _
        rw [show scan_line a idb o (some f, p) l = scan_open a idb f p l from rfl, hpair]
      obtain ⟨ih1, ih2⟩ := ih f (scan_open a idb f p l).2 hrest
      rw [hrun]
      refine ⟨ih1, ?_⟩
      rw [ih2, h2]
      by_cases hd : strStarts (strTrim l) (str ".") = true
      · simp [hd, List.filter]
      · rw [Bool.not_eq_true] at hd
        simp only [hd, Bool.false_eq_true, if_false, List.filter, Bool.not_false,
          List.length_cons]
        omega

/-! ## Claim C1 -/

/-- C1: identity interning keys local symbols by (object, name) and
global/weak symbols by name alone.  If the raw name `n` is classified
`Local` in two parses for distinct objects `o1 ≠ o2`, the two interned
`FunctionID`s are distinct; and a name `g` holding a Global identity
after the first parse (whether classified `.globl`/`.weak` or first seen
only as a call target) keeps that same single `FunctionID` through the
second parse, so both objects resolve `g` to the identical id. -/
theorem c1_identity_interning
    (o1 o2 : ObjectID) (t1 t2 : List Str) (p1 p2 p3 : ParsedData)
    (s1 s2 : Pass1) (n g : Str) (j : FunctionID)
    (hobj : o1 ≠ o2)
    (hinv : IdsOk p1.function_id_by_name)
    (hs1 : pass1 t1 = some s1) (hs2 : pass1 t2 = some s2)
    (hparse1 : parse_data o1 t1 p1 = some p2)
    (hparse2 : parse_data o2 t2 p2 = some p3)
    (hn1 : n ∈ s1.function_names)
    (hl1 : (lookupA s1.link_type_by_name n).getD LinkType.Local = LinkType.Local)
    (hn2 : n ∈ s2.function_names)
    (hl2 : (lookupA s2.link_type_by_name n).getD LinkType.Local = LinkType.Local)
    (hg : lookupA p2.function_id_by_name (FunctionName.Global ⟨g⟩) = some j) :
    (∃ i1 i2, lookupA p3.function_id_by_name (FunctionName.Local ⟨o1, n⟩) = some i1 ∧
              lookupA p3.function_id_by_name (FunctionName.Local ⟨o2, n⟩) = some i2 ∧
              i1 ≠ i2) ∧
    lookupA p3.function_id_by_name (FunctionName.Global ⟨g⟩) = some j := by
  have hkey1 : function_key o1 s1.link_type_by_name n = FunctionName.Local ⟨o1, n⟩ := by
    unfold function_key
    rw [hl1]
  have hkey2 : function_key o2 s2.link_type_by_name n = FunctionName.Local ⟨o2, n⟩ := by
    unfold function_key
    rw [hl2]
  obtain ⟨i1, hi1⟩ := parse_data_binds hs1 hparse1 hn1
  rw [hkey1] at hi1
  have hi1' : lookupA p3.function_id_by_name (FunctionName.Local ⟨o1, n⟩) = some i1 :=
    parse_data_preserves hparse2 hi1
  obtain ⟨i2, hi2⟩ := parse_data_binds hs2 hparse2 hn2
  rw [hkey2] at hi2
  have hids : IdsOk p3.function_id_by_name :=
    parse_data_IdsOk hparse2 (parse_data_IdsOk hparse1 hinv)
  refine ⟨⟨i1, i2, hi1', hi2, ?_⟩, parse_data_preserves hparse2 hg⟩
  intro heq
  rw [heq] at hi1'
  have hkeys := IdsOk_inj hids hi1' hi2
  simp only [FunctionName.Local.injEq, LocalFunctionName.mk.injEq] at hkeys
  exact hobj hkeys.1

/-- Translation unit used to instantiate C1: a local function `f` and a
global function `g`. -/
def c1t : List Str :=
  [str "\t.type\tf, @function", str "\t.type\tg, @function", str "\t.globl\tg"]

/-- Classification result of `c1t`. -/
def c1s : Pass1 := (pass1 c1t).getD ⟨[], [], []⟩

/-- Knowledge Base after parsing `c1t` as object 0. -/
def c1p2 : ParsedData := (parse_data ⟨0⟩ c1t emptyParsedData).getD emptyParsedData

/-- Knowledge Base after additionally parsing `c1t` as object 1. -/
def c1p3 : ParsedData := (parse_data ⟨1⟩ c1t c1p2).getD emptyParsedData

/-- C1 witness: concrete two-object instantiation of
`c1_identity_interning`. -/
theorem c1_witness :
    (∃ i1 i2,
        lookupA c1p3.function_id_by_name (FunctionName.Local ⟨⟨0⟩, str "f"⟩) = some i1 ∧
        lookupA c1p3.function_id_by_name (FunctionName.Local ⟨⟨1⟩, str "f"⟩) = some i2 ∧
        i1 ≠ i2) ∧
    lookupA c1p3.function_id_by_name (FunctionName.Global ⟨str "g"⟩) = some ⟨1⟩ :=
  c1_identity_interning ⟨0⟩ ⟨1⟩ c1t c1t emptyParsedData c1p2 c1p3 c1s c1s
    (str "f") (str "g") ⟨1⟩
    (by decide) (by simp [IdsOk, emptyParsedData]) (by decide) (by decide)
    (by decide) (by decide) (by decide) (by decide) (by decide) (by decide) (by decide)

/-! ## Claim C2 -/

/-- Input exercising the `.set` alias path: `f` calls `old`, and
`.set old,new` declares `old` as an alias of `new`. -/
def c2lines : List Str :=
  [str "\t.type\tf, @function",
   str "\t.set\told,new",
   str "f:",
   str "\tcall\told",
   str "\t.size\tf, .-f"]

/-- Knowledge Base after parsing `c2lines`. -/
def c2parsed : ParsedData := (parse_data ⟨0⟩ c2lines emptyParsedData).getD emptyParsedData

/-- C2: the claim says a call to `old`, with `.set old,new` declared,
produces an edge to the identity resolved for the bare name `new`, the
alias target being stripped of leading punctuation.  The code instead
keeps the leading comma of the `.set` value slice: the recorded callee
is `Global{",new"}`, no identity for the bare name `new` (or for `old`)
is ever interned, so every alias-based lookup silently misses.  This
theorem evaluates the code at the failing input. -/
theorem c2_alias_comma_bug :
    (parse_data ⟨0⟩ c2lines emptyParsedData).isSome = true ∧
    lookupA c2parsed.function_id_by_name (FunctionName.Global ⟨str ",new"⟩) = some ⟨1⟩ ∧
    lookupA c2parsed.function_id_by_name (FunctionName.Global ⟨str "new"⟩) = none ∧
    lookupA c2parsed.function_id_by_name (FunctionName.Global ⟨str "old"⟩) = none ∧
    lookupA c2parsed.callees_by_caller ⟨0⟩ = some [⟨1⟩] := by decide

/-! ## Claim C3 -/

/-- C3: for a function body opened by its label line and closed by a
  `.size` directive line, the recorded instruction count grows by exactly
the number of lines strictly between the label and the size directive
whose trimmed form does not begin with a dot: every non-directive line
(including a call line) counts one, directive lines count zero.  The
scan also ends with the cursor cleared. -/
theorem c3_instruction_count
    (aliases : List (Str × Str)) (id_by_function_name : List (Str × FunctionID))
    (object : ObjectID) (f : FunctionID) (label : Str) (body : List Str) (sz : Str)
    (p : ParsedData)
    (hlab1 : strStarts label (str "\t") = false)
    (hlab2 : strEnds label (str ":") = true)
    (hlab3 : lookupA id_by_function_name (label.take (label.length - 1)) = some f)
    (hbody : ∀ l ∈ body, strStarts (strTrim l) (str ".size\t") = false)
    (hsz : strStarts (strTrim sz) (str ".size\t") = true) :
    (lookupA (scan_run aliases id_by_function_name object (label :: (body ++ [sz]))
        (none, p)).2.instructions_by_function f).getD 0
      = (lookupA p.instructions_by_function f).getD 0
        + (body.filter (fun l => !(strStarts (strTrim l) (str ".")))).length ∧
    (scan_run aliases id_by_function_name object (label :: (body ++ [sz])) (none, p)).1
      = none := by
  have hstep : scan_line aliases id_by_function_name object (none, p) label
      = (some f, { p with
          functions_by_object := pushA p.functions_by_object object f,
          objects_by_function := pushA p.objects_by_function f object }) :=
    scan_closed_label id_by_function_name object p label f hlab1 hlab2 hlab3
  rw [scan_run_cons, hstep, scan_run_append]
  have hb := scan_run_open aliases id_by_function_name object body f
    { p with
      functions_by_object := pushA p.functions_by_object object f,
      objects_by_function := pushA p.objects_by_function f object } hbody
  cases hsplit : scan_run aliases id_by_function_name object body
      (some f, { p with
        functions_by_object := pushA p.functions_by_object object f,
        objects_by_function := pushA p.objects_by_function f object }) with
  | mk q1 q2 =>
      rw [hsplit] at hb
      obtain ⟨hb1, hb2⟩ := hb
      dsimp only at hb1 hb2
      subst hb1
      rw [scan_run_single]
      have hline : scan_line aliases id_by_function_name object (some f, q2) sz
          = scan_open aliases id_by_function_name f q2 sz := rfl
      rw [hline, scan_open_size aliases id_by_function_name f q2 sz hsz]
      exact ⟨hb2, rfl⟩

/-- Body lines used to instantiate C3: two instructions, one skipped
directive, one call. -/
def c3body : List Str := [str "\tpushq\t%rbp", str "\t.p2align\t4", str "\tcall\tg"]

/-- C3 witness: concrete instantiation of `c3_instruction_count`; the
directive line is skipped, so `f` records 2 instructions. -/
theorem c3_witness :
    (lookupA (scan_run [] [(str "f", ⟨0⟩)] ⟨0⟩ ((str "f:") :: (c3body ++ [str "\t.size\tf, .-f"]))
        (none, emptyParsedData)).2.instructions_by_function ⟨0⟩).getD 0
      = (lookupA emptyParsedData.instructions_by_function ⟨0⟩).getD 0
        + (c3body.filter (fun l => !(strStarts (strTrim l) (str ".")))).length ∧
    (scan_run [] [(str "f", ⟨0⟩)] ⟨0⟩ ((str "f:") :: (c3body ++ [str "\t.size\tf, .-f"]))
        (none, emptyParsedData)).1 = none :=
  c3_instruction_count [] [(str "f", ⟨0⟩)] ⟨0⟩ ⟨0⟩ (str "f:") c3body
    (str "\t.size\tf, .-f") emptyParsedData
    (by decide) (by decide) (by decide) (by decide) (by decide)

/-! ## Claim C4 -/

/-- The spec's worked example: `foo` is typed as a function with no
global/weak directive, has three non-directive body lines of which one
calls `bar@PLT`, and `bar` is declared `.globl` elsewhere. -/
def c4lines : List Str :=
  [str "\t.type\tfoo, @function",
   str "\t.globl\tbar",
   str "foo:",
   str "\tpushq\t%rbp",
   str "\tmovq\t%rsp, %rbp",
   str "\tcall\tbar@PLT",
   str "\t.size\tfoo, .-foo"]

/-- Knowledge Base after parsing the worked example. -/
def c4parsed : ParsedData := (parse_data ⟨0⟩ c4lines emptyParsedData).getD emptyParsedData

/-- C4: on the spec's worked example, `foo` is interned as
`Local{object 0, "foo"}` (and not as a global), records instruction
count 3, and has exactly one callee edge to `Global{"bar"}`. -/
theorem c4_worked_example :
    (parse_data ⟨0⟩ c4lines emptyParsedData).isSome = true ∧
    lookupA c4parsed.function_id_by_name (FunctionName.Local ⟨⟨0⟩, str "foo"⟩) = some ⟨0⟩ ∧
    lookupA c4parsed.function_id_by_name (FunctionName.Global ⟨str "foo"⟩) = none ∧
    lookupA c4parsed.instructions_by_function ⟨0⟩ = some 3 ∧
    lookupA c4parsed.function_id_by_name (FunctionName.Global ⟨str "bar"⟩) = some ⟨1⟩ ∧
    lookupA c4parsed.callees_by_caller ⟨0⟩ = some [⟨1⟩] := by decide

/-! ## Claim C5 -/

/-- Input for the C5 counterexample: one object in which the label of
the local function `f` is scanned twice. -/
def c5lines : List Str :=
  [str "\t.type\tf, @function",
   str "f:", str "\tnop", str "\t.size\tf, .-f",
   str "f:", str "\tnop", str "\t.size\tf, .-f"]

/-- The Knowledge Base with one registered object, before parsing. -/
def c5registered : ParsedData := (register_object emptyParsedData ⟨str "o1.o"⟩).2

/-- Knowledge Base after parsing `c5lines` into the registered object. -/
def c5parsed : ParsedData :=
  (parse_data ⟨0⟩ c5lines c5registered).getD emptyParsedData

/-- C5 counterexample: the claim says the functions-present-in-all-objects
query returns a function iff the number of *distinct* objects it is
defined in equals the number of registered objects — including states
where the same function label is recorded more than once per object.
Here exactly one object is registered, `f` (id 0) is defined in exactly
one distinct object, yet the query returns nothing, because the code
compares the raw length of the per-function object list (here
`[o0, o0]`, length 2) with the object count. -/
theorem c5_counterexample :
    (parse_data ⟨0⟩ c5lines c5registered).isSome = true ∧
    lookupA c5parsed.function_id_by_name (FunctionName.Local ⟨⟨0⟩, str "f"⟩) = some ⟨0⟩ ∧
    c5parsed.object_id_by_name.length = 1 ∧
    ((lookupA c5parsed.objects_by_function ⟨0⟩).getD []).dedup.length = 1 ∧
    lookupA c5parsed.objects_by_function ⟨0⟩ = some [⟨0⟩, ⟨0⟩] ∧
    print_functions_in_all_objects c5parsed = [] := by decide

/-- C5 (amended): the query returns a function iff the length of its
recorded defining-object list — one entry per label scan, duplicates
preserved — equals the number of registered objects.  Stated for any
Knowledge Base whose `objects_by_function` table has no duplicate
function keys (which holds for tables built by `pushA`). -/
theorem c5_amended (p : ParsedData) (f : FunctionID)
    (h : (p.objects_by_function.map Prod.fst).Nodup) :
    f ∈ print_functions_in_all_objects p ↔
      ∃ objs, lookupA p.objects_by_function f = some objs ∧
        objs.length = p.object_id_by_name.length := by
  unfold print_functions_in_all_objects
  simp only [List.mem_map, List.mem_filter, decide_eq_true_eq]
  constructor
  · rintro ⟨⟨a, objs⟩, ⟨hmem, hlen⟩, rfl⟩
    exact ⟨objs, (mem_iff_lookupA h a objs).1 hmem, hlen⟩
  · rintro ⟨objs, hl, hlen⟩
    exact ⟨(f, objs), ⟨(mem_iff_lookupA h f objs).2 hl, hlen⟩, rfl⟩

/-- C5 witness: the amended equivalence applied to the concrete
double-label state, where it correctly reports that `f` is absent. -/
theorem c5_amended_witness :
    (⟨0⟩ : FunctionID) ∈ print_functions_in_all_objects c5parsed ↔
      ∃ objs, lookupA c5parsed.objects_by_function ⟨0⟩ = some objs ∧
        objs.length = c5parsed.object_id_by_name.length :=
  c5_amended c5parsed ⟨0⟩ (by decide)

/-! ## Claim C6 -/

/-- C6: the claim says every input string parses to completion without
panicking, malformed directive lines being skipped locally.  The code
panics on the single line `.type@function`: the line passes both the
`.type` and the `@function` tests, and the slice
`&trimmed_line[6..(14 - 11)]` has its start beyond its end.  The model
returns `none` exactly where the Rust code panics. -/
theorem c6_type_slice_panic :
    parse_data ⟨0⟩ [str ".type@function"] emptyParsedData = none := by decide

/-! ## Claim C7 -/

/-- C7 counterexample: the claim says a call line encountered while no
function body is open is reported as an error with line context.  The
code has no error path in the scanner at all: parsing a lone call line
succeeds and leaves the Knowledge Base untouched — the line is
silently ignored. -/
theorem c7_counterexample :
    parse_data ⟨0⟩ [str "\tcall\tg"] emptyParsedData = some emptyParsedData := by decide

/-- C7 (amended): when no function body is open, any tab-indented line —
in particular a call instruction line — is silently skipped: the cursor
stays closed, no edge or count is recorded, and no error is reported. -/
theorem c7_amended_silent_skip (aliases : List (Str × Str))
    (id_by_function_name : List (Str × FunctionID)) (object : ObjectID)
    (p : ParsedData) (line : Str)
    (h : strStarts line (str "\t") = true) :
    scan_line aliases id_by_function_name object (none, p) line = (none, p) := by
  show scan_closed id_by_function_name object p line = (none, p)
  unfold scan_closed
  rw [h]
  simp

/-- C7 witness: the amended statement applied to a concrete call line in
closed state. -/
theorem c7_witness :
    scan_line [] [] ⟨0⟩ (none, emptyParsedData) (str "\tcall\tg")
      = (none, emptyParsedData) :=
  c7_amended_silent_skip [] [] ⟨0⟩ emptyParsedData (str "\tcall\tg") (by decide)

/-! ## Claim C8 -/

/-- C8: the function report fails (`NotFound`) exactly when the given
identity was never interned; for every interned identity it succeeds and
returns the recorded defining objects, direct callers and direct
callees, with an empty caller list when the identity has no entry in
`callers_by_callee` (a function never called by name) and an empty
callee list when it has no entry in `callees_by_caller` (a function that
calls nothing resolvable). -/
theorem c8_function_report (p : ParsedData) (f : FunctionName) :
    ((print_function_info p f).isSome = (lookupA p.function_id_by_name f).isSome) ∧
    (∀ fid, lookupA p.function_id_by_name f = some fid →
      print_function_info p f
        = some ⟨(lookupA p.objects_by_function fid).getD [],
                (lookupA p.callers_by_callee fid).getD [],
                (lookupA p.callees_by_caller fid).getD []⟩ ∧
      (lookupA p.callers_by_callee fid = none →
        (print_function_info p f).map FunctionInfo.callers = some []) ∧
      (lookupA p.callees_by_caller fid = none →
        (print_function_info p f).map FunctionInfo.callees = some [])) := by
  cases hl : lookupA p.function_id_by_name f with
  | none => simp [print_function_info, hl]
  | some fid0 =>
      constructor
      · simp [print_function_info, hl]
      · intro fid hfid
        injection hfid with hfid
        subst hfid
        refine ⟨by simp [print_function_info, hl], ?_, ?_⟩
        · intro hcal
          simp [print_function_info, hl, hcal]
        · intro hcal
          simp [print_function_info, hl, hcal]

/-- Input for the C8 witness: a single function with no calls. -/
def c8lines : List Str :=
  [str "\t.type\tf, @function", str "f:", str "\tnop", str "\t.size\tf, .-f"]

/-- Knowledge Base after parsing `c8lines`. -/
def c8parsed : ParsedData := (parse_data ⟨0⟩ c8lines emptyParsedData).getD emptyParsedData

/-- C8 witness: the report for the interned, never-called, non-calling
function `f` succeeds with its defining object and empty caller and
callee lists. -/
theorem c8_witness :
    print_function_info c8parsed (FunctionName.Local ⟨⟨0⟩, str "f"⟩)
      = some ⟨[⟨0⟩], [], []⟩ := by
  have h := (c8_function_report c8parsed (FunctionName.Local ⟨⟨0⟩, str "f"⟩)).2
    ⟨0⟩ (by decide)
  exact h.1.trans (by decide)

/-! ## Claim C9 -/

/-- Input for C9: the open body of `f` calls the unclassified name `g`
twice. -/
def c9lines : List Str :=
  [str "\t.type\tf, @function", str "f:", str "\tcall\tg", str "\tcall\tg",
   str "\t.size\tf, .-f"]

/-- Knowledge Base after parsing `c9lines`. -/
def c9parsed : ParsedData := (parse_data ⟨0⟩ c9lines emptyParsedData).getD emptyParsedData

/-- C9: the claim says every `FunctionID` stored in the id-to-name table
was allocated in the name-to-id table; in particular resolving an
already-interned callee writes no entry for an unallocated id.  The code
violates this: on the second `call g`, the callee is reused (id 1), yet
`name_by_function_id.insert(next_function_id, ..)` writes the entry at
the never-allocated id 2 — `next_function_id` instead of the reused
`callee_id`.  This theorem evaluates the code at the failing input:
after the parse only ids 0 and 1 exist in the name-to-id table, but the
id-to-name table holds an entry for id 2. -/
theorem c9_spurious_id_entry :
    (parse_data ⟨0⟩ c9lines emptyParsedData).isSome = true ∧
    lookupA c9parsed.name_by_function_id ⟨2⟩ = some (FunctionName.Global ⟨str "g"⟩) ∧
    c9parsed.function_id_by_name.length = 2 ∧
    ¬ ((⟨2⟩ : FunctionID) ∈ c9parsed.function_id_by_name.map Prod.snd) := by decide

/-! ## Claim C10 -/

/-- C10 (implicit): while a body is open, the cursor is cleared only by
a `.size` directive line; a bare label line of another classified
function `g` does not open `g` — it is counted as one more instruction
of the still-open `f` and records no definition membership — and a body
missing its closing size directive keeps `f` open across any run of
size-directive-free lines (absorbing them and their call edges). -/
theorem c10_open_body_absorption
    (aliases : List (Str × Str)) (id_by_function_name : List (Str × FunctionID))
    (object : ObjectID) (f g : FunctionID) (p : ParsedData) (line : Str) (ls : List Str)
    (_hlab : strEnds line (str ":") = true)
    (_hlab2 : lookupA id_by_function_name (line.take (line.length - 1)) = some g)
    (hnd : strStarts (strTrim line) (str ".") = false) :
    (((scan_open aliases id_by_function_name f p line).1 = none)
        ↔ strStarts (strTrim line) (str ".size\t") = true) ∧
    (scan_open aliases id_by_function_name f p line).1 = some f ∧
    (scan_open aliases id_by_function_name f p line).2.functions_by_object
        = p.functions_by_object ∧
    (scan_open aliases id_by_function_name f p line).2.objects_by_function
        = p.objects_by_function ∧
    (lookupA (scan_open aliases id_by_function_name f p line).2.instructions_by_function
        f).getD 0
      = (lookupA p.instructions_by_function f).getD 0 + 1 ∧
    ((∀ l ∈ ls, strStarts (strTrim l) (str ".size\t") = false) →
      (scan_run aliases id_by_function_name object ls (some f, p)).1 = some f) := by
  have hsize : strStarts (strTrim line) (str ".size\t") = false := by
    cases hv : strStarts (strTrim line) (str ".size\t")
    · rfl
    · exact absurd (size_starts_dot hv) (by simp [hnd])
  obtain ⟨h1, h2⟩ := scan_open_step aliases id_by_function_name f p line hsize
  obtain ⟨m1, m2⟩ := scan_open_membership aliases id_by_function_name f p line
  refine ⟨scan_open_cursor aliases id_by_function_name f p line, h1, m1, m2, ?_,
    fun hls => (scan_run_open aliases id_by_function_name object ls f p hls).1⟩
  rw [h2, hnd]
  simp

/-- Classified-name table for the C10 witness: `f` and `g`. -/
def c10idb : List (Str × FunctionID) := [(str "f", ⟨0⟩), (str "g", ⟨1⟩)]

/-- C10 witness: with `f` (id 0) open, the label line of the classified
function `g` behaves as one instruction of `f`, and a size-free run of
lines keeps `f` open. -/
theorem c10_witness :
    (((scan_open [] c10idb ⟨0⟩ emptyParsedData (str "g:")).1 = none)
        ↔ strStarts (strTrim (str "g:")) (str ".size\t") = true) ∧
    (scan_open [] c10idb ⟨0⟩ emptyParsedData (str "g:")).1 = some ⟨0⟩ ∧
    (scan_open [] c10idb ⟨0⟩ emptyParsedData (str "g:")).2.functions_by_object
        = emptyParsedData.functions_by_object ∧
    (scan_open [] c10idb ⟨0⟩ emptyParsedData (str "g:")).2.objects_by_function
        = emptyParsedData.objects_by_function ∧
    (lookupA (scan_open [] c10idb ⟨0⟩ emptyParsedData (str "g:")).2.instructions_by_function
        ⟨0⟩).getD 0
      = (lookupA emptyParsedData.instructions_by_function ⟨0⟩).getD 0 + 1 ∧
    ((∀ l ∈ [str "g:", str "\tnop"], strStarts (strTrim l) (str ".size\t") = false) →
      (scan_run [] c10idb ⟨0⟩ [str "g:", str "\tnop"]
          (some ⟨0⟩, emptyParsedData)).1 = some ⟨0⟩) :=
  c10_open_body_absorption [] c10idb ⟨0⟩ ⟨0⟩ ⟨1⟩ emptyParsedData (str "g:")
    [str "g:", str "\tnop"] (by decide) (by decide) (by decide)

end AsmAnalysis
